import Mathlib

/-!
# Verification of the movie-recommender caching and session core

Shallow embedding in Lean 4 of the components of the repository that the
claims concern:

* the LRU query cache of `mcp_server/database/sqlite_client.py` (identical in
  `vector_client.py`): `_get_from_cache`, `_put_in_cache`, `__init__`;
* the cache-key normalisation `_normalize_cache_value` / `_make_cache_key`;
* the filtered/ranked/paginated SQL query built by
  `SQLiteClient.query_movies`, interpreted over a list of movie rows;
* the session layer of `api/api.py` + `api/db_sqlite.py`
  (`validate_chat_pair`, `archive_chat`, `unarchive_chat`, `get_chat`,
  `update_chat_status`);
* the fail-open fast-cache wrappers of `api/cache_redis.py`;
* the per-conversation lock discipline of `movie_assistant/agent.py`
  (`MovieAgent.answer` / `ahistory` / `close`), as a small-step interleaving
  semantics.

Python strings are modelled as Lean `String`s; the character-level helpers
below mirror `str.lower`, `str.upper`, `str.strip`, `str.split(",")`, and
ASCII case-insensitive substring matching (SQLite `LIKE ... COLLATE NOCASE`
applied to a `%`-wrapped, escape-protected literal pattern).  They are written
against `String.data` so that every definition evaluates by kernel reduction.
-/

/-- `str.lower()` (ASCII; the repository's data is ASCII). -/
def lowerStr (s : String) : String := ⟨s.data.map Char.toLower⟩

/-- `str.upper()` (ASCII), used by `query_movies` for the `order_dir` check. -/
def upperStr (s : String) : String := ⟨s.data.map Char.toUpper⟩

/-- ASCII whitespace as recognised by `str.strip()`. -/
def isWs (c : Char) : Bool := c = ' ' || c = '\t' || c = '\n' || c = '\r'

/-- `str.strip()`: drop whitespace at both ends. -/
def trimStr (s : String) : String :=
  ⟨((s.data.dropWhile isWs).reverse.dropWhile isWs).reverse⟩

/-- `str.split(",")` on the character list: splits at every comma, keeping
empty fragments (Python semantics). -/
def splitComma : List Char → List (List Char)
  | [] => [[]]
  | c :: rest =>
    match splitComma rest, c == ',' with
    | r, true => [] :: r
    | [], false => [[c]]
    | g :: gs, false => (c :: g) :: gs

/-- `s.split(",")` as a list of strings. -/
def splitCommaStr (s : String) : List String :=
  (splitComma s.data).map (fun cs => (⟨cs⟩ : String))

/-- Code-point lexicographic `≤` on character lists (the order Python's
`sorted` uses on `str`, and SQLite's BINARY collation on ASCII text). -/
def lexLeChars : List Char → List Char → Bool
  | [], _ => true
  | _ :: _, [] => false
  | a :: as, b :: bs => if a = b then lexLeChars as bs else decide (a < b)

/-- Code-point lexicographic `≤` on strings. -/
def strLe (a b : String) : Bool := lexLeChars a.data b.data

/-- `strLe` as a Prop-valued relation, for `List.insertionSort`. -/
def strLeRel (a b : String) : Prop := strLe a b = true

instance : DecidableRel strLeRel :=
  fun a b => inferInstanceAs (Decidable (strLe a b = true))

theorem lexLeChars_total (as bs : List Char) :
    lexLeChars as bs = true ∨ lexLeChars bs as = true := by
  induction as generalizing bs with
  | nil => left; rfl
  | cons a as ih =>
    cases bs with
    | nil => right; rfl
    | cons b bs =>
      by_cases hab : a = b
      · subst hab
        simpa [lexLeChars] using ih bs
      · rcases lt_or_gt_of_ne hab with h | h
        · left; simp [lexLeChars, hab, h]
        · right
          have hba : ¬ (b = a) := fun e => hab e.symm
          simp [lexLeChars, hba, h]

theorem lexLeChars_trans (as bs cs : List Char)
    (h₁ : lexLeChars as bs = true) (h₂ : lexLeChars bs cs = true) :
    lexLeChars as cs = true := by
  induction as generalizing bs cs with
  | nil => rfl
  | cons a as ih =>
    cases bs with
    | nil => simp [lexLeChars] at h₁
    | cons b bs =>
      cases cs with
      | nil => simp [lexLeChars] at h₂
      | cons c cs =>
        by_cases hab : a = b <;> by_cases hbc : b = c
        · subst hab; subst hbc
          simp only [lexLeChars, if_pos rfl] at h₁ h₂ ⊢
          exact ih bs cs h₁ h₂
        · subst hab
          simp only [lexLeChars, if_pos rfl] at h₁
          simpa [lexLeChars, hbc] using h₂
        · subst hbc
          simpa [lexLeChars, hab] using h₁
        · simp only [lexLeChars, if_neg hab, decide_eq_true_eq] at h₁
          simp only [lexLeChars, if_neg hbc, decide_eq_true_eq] at h₂
          have hac : a < c := lt_trans h₁ h₂
          simp [lexLeChars, ne_of_lt hac, hac]

theorem lexLeChars_antisymm (as bs : List Char)
    (h₁ : lexLeChars as bs = true) (h₂ : lexLeChars bs as = true) : as = bs := by
  induction as generalizing bs with
  | nil =>
    cases bs with
    | nil => rfl
    | cons b bs => simp [lexLeChars] at h₂
  | cons a as ih =>
    cases bs with
    | nil => simp [lexLeChars] at h₁
    | cons b bs =>
      by_cases hab : a = b
      · subst hab
        simp only [lexLeChars, if_pos rfl] at h₁ h₂
        exact congrArg (a :: ·) (ih bs h₁ h₂)
      · have hba : ¬ (b = a) := fun e => hab e.symm
        simp only [lexLeChars, if_neg hab, decide_eq_true_eq] at h₁
        simp only [lexLeChars, if_neg hba, decide_eq_true_eq] at h₂
        exact absurd h₂ (not_lt_of_gt h₁)

instance : IsTotal String strLeRel :=
  ⟨fun a b => lexLeChars_total a.data b.data⟩

instance : IsTrans String strLeRel :=
  ⟨fun a b c h₁ h₂ => lexLeChars_trans a.data b.data c.data h₁ h₂⟩

instance : IsAntisymm String strLeRel :=
  ⟨fun a b h₁ h₂ => String.ext (lexLeChars_antisymm a.data b.data h₁ h₂)⟩

/-- Case-insensitive substring test on character lists. -/
def containsSub (hay pat : List Char) : Bool :=
  match hay with
  | [] => pat.isEmpty
  | _ :: rest => pat.isPrefixOf hay || containsSub rest pat

/-!
## The LRU query cache

`SQLiteClient._get_from_cache` / `_put_in_cache`
(`src/mcp_server/database/sqlite_client.py` lines 101-122; the code in
`vector_client.py` lines 100-121 is character-for-character the same).  The
Python `OrderedDict` is modelled as a list of key/value pairs in insertion
order: the head is the oldest (least recently used) entry, the last element
the most recent.  `cache_size` is a Python `int`, hence `Int` here.
-/

structure LRUCache (α : Type) where
  entries : List (String × α)
  cacheSize : Int
deriving DecidableEq

/-- `_get_from_cache`: on hit, `move_to_end` (re-append at the most-recent
end) and return the value; on miss return `None`. -/
def getFromCache {α : Type} (c : LRUCache α) (key : String) :
    Option α × LRUCache α :=
  match c.entries.find? (fun e => e.1 == key) with
  | some e =>
    (some e.2, ⟨(c.entries.filter (fun e' => e'.1 != key)) ++ [e], c.cacheSize⟩)
  | none => (none, c)

/-- The eviction step at the end of `_put_in_cache` (lines 118-122): if the
size exceeds `cache_size`, delete the single oldest entry. -/
def evictIfOver {α : Type} (c : LRUCache α) : LRUCache α :=
  if (c.entries.length : Int) > c.cacheSize then ⟨c.entries.drop 1, c.cacheSize⟩
  else c

/-- `_put_in_cache`: delete the key if present, append at the most-recent end,
then evict the single oldest entry if the size now exceeds `cache_size`. -/
def putInCache {α : Type} (c : LRUCache α) (key : String) (v : α) : LRUCache α :=
  evictIfOver ⟨(c.entries.filter (fun e => e.1 != key)) ++ [(key, v)], c.cacheSize⟩

/-- A client-visible cache operation. -/
inductive CacheOp (α : Type) where
  | get (key : String)
  | put (key : String) (v : α)

/-- Effect of one operation on the cache state. -/
def applyOp {α : Type} (c : LRUCache α) : CacheOp α → LRUCache α
  | .get k => (getFromCache c k).2
  | .put k v => putInCache c k v

/-- Run a sequence of cache operations. -/
def runOps {α : Type} (c : LRUCache α) (ops : List (CacheOp α)) : LRUCache α :=
  ops.foldl applyOp c

/-- `SQLiteClient.__init__` (lines 19-38): raises `FileNotFoundError` when the
database file is missing, otherwise stores an empty `OrderedDict` and the
given `cache_size` — the capacity value itself is never validated.
(`VectorDBClient.__init__` checks its two files the same way.) -/
def clientInit (α : Type) (dbExists : Bool) (cacheSize : Int) :
    Except String (LRUCache α) :=
  if dbExists then .ok ⟨[], cacheSize⟩
  else .error "Database not found"

theorem length_filter_ne_of_found {α : Type} (l : List (String × α)) (key : String)
    (e : String × α) (h : l.find? (fun x => x.1 == key) = some e) :
    (l.filter (fun x => x.1 != key)).length + 1 ≤ l.length := by
  induction l with
  | nil => simp at h
  | cons a l ih =>
    have hlen := List.length_filter_le (fun x => x.1 != key) l
    by_cases ha : (a.1 == key) = true
    · have hne : (a.1 != key) = false := by simp [bne, ha]
      simp only [List.filter_cons, hne, Bool.false_eq_true, if_false,
        List.length_cons]
      omega
    · have hne : (a.1 != key) = true := by simp [bne]; simpa using ha
      have h' : l.find? (fun x => x.1 == key) = some e := by
        rwa [List.find?_cons_of_neg _ (by simpa using ha)] at h
      have := ih h'
      simp only [List.filter_cons, hne, if_true, List.length_cons]
      omega

theorem getFromCache_size_le {α : Type} (c : LRUCache α) (key : String) :
    ((getFromCache c key).2.entries.length : Int) ≤ c.entries.length := by
  unfold getFromCache
  cases hf : c.entries.find? (fun e => e.1 == key) with
  | none => simp
  | some e =>
    simp only [List.length_append, List.length_cons, List.length_nil]
    have := length_filter_ne_of_found c.entries key e hf
    push_cast
    omega

theorem putInCache_size_le {α : Type} (c : LRUCache α) (key : String) (v : α)
    (h : (c.entries.length : Int) ≤ max 0 c.cacheSize) :
    ((putInCache c key v).entries.length : Int) ≤ max 0 c.cacheSize := by
  have hf : (c.entries.filter (fun e => e.1 != key)).length ≤ c.entries.length :=
    List.length_filter_le _ _
  unfold putInCache evictIfOver
  split
  · rename_i hgt
    simp only [List.length_drop, List.length_append, List.length_cons,
      List.length_nil] at *
    push_cast at *
    omega
  · rename_i hle
    simp only [List.length_append, List.length_cons, List.length_nil] at *
    push_cast at *
    omega

theorem applyOp_size_le {α : Type} (c : LRUCache α) (op : CacheOp α)
    (h : (c.entries.length : Int) ≤ max 0 c.cacheSize) :
    ((applyOp c op).entries.length : Int) ≤ max 0 (applyOp c op).cacheSize := by
  cases op with
  | get k =>
    have h1 := getFromCache_size_le c k
    have h2 : (getFromCache c k).2.cacheSize = c.cacheSize := by
      unfold getFromCache
      cases c.entries.find? (fun e => e.1 == k) <;> rfl
    simp only [applyOp, h2]
    omega
  | put k v =>
    have h2 : (putInCache c k v).cacheSize = c.cacheSize := by
      unfold putInCache evictIfOver
      split <;> rfl
    simp only [applyOp, h2]
    exact putInCache_size_le c k v h

theorem runOps_size_le {α : Type} (c : LRUCache α) (ops : List (CacheOp α))
    (h : (c.entries.length : Int) ≤ max 0 c.cacheSize) :
    ((runOps c ops).entries.length : Int) ≤ max 0 (runOps c ops).cacheSize := by
  induction ops generalizing c with
  | nil => exact h
  | cons op ops ih => exact ih (applyOp c op) (applyOp_size_le c op h)

theorem getFromCache_cacheSize {α : Type} (c : LRUCache α) (k : String) :
    (getFromCache c k).2.cacheSize = c.cacheSize := by
  unfold getFromCache
  cases c.entries.find? (fun e => e.1 == k) <;> rfl

theorem putInCache_cacheSize {α : Type} (c : LRUCache α) (k : String) (v : α) :
    (putInCache c k v).cacheSize = c.cacheSize := by
  unfold putInCache evictIfOver
  split <;> rfl

theorem applyOp_cacheSize {α : Type} (c : LRUCache α) (op : CacheOp α) :
    (applyOp c op).cacheSize = c.cacheSize := by
  cases op with
  | get k => exact getFromCache_cacheSize c k
  | put k v => exact putInCache_cacheSize c k v

theorem runOps_cacheSize {α : Type} (c : LRUCache α) (ops : List (CacheOp α)) :
    (runOps c ops).cacheSize = c.cacheSize := by
  induction ops generalizing c with
  | nil => rfl
  | cons op ops ih =>
    have hstep : runOps c (op :: ops) = runOps (applyOp c op) ops := rfl
    rw [hstep, ih (applyOp c op), applyOp_cacheSize]

theorem putInCache_fresh_entries {α : Type} (c : LRUCache α) (k : String) (v : α)
    (hfresh : ∀ e ∈ c.entries, e.1 ≠ k) :
    putInCache c k v = evictIfOver ⟨c.entries ++ [(k, v)], c.cacheSize⟩ := by
  unfold putInCache
  congr 1
  simp only [LRUCache.mk.injEq, and_true]
  rw [List.filter_eq_self.mpr]
  intro e he
  simpa [bne] using hfresh e he

theorem putInCache_empty_cap_nonpos {α : Type} (cap : Int) (k : String) (v : α)
    (hcap : cap ≤ 0) :
    (putInCache (⟨[], cap⟩ : LRUCache α) k v).entries = [] := by
  unfold putInCache evictIfOver
  simp only [List.filter_nil, List.nil_append]
  rw [if_pos (by simp; omega)]
  rfl

/-- C2 ("LRU eviction", "size never exceeds capacity", "recency updated on
every read and write"):
1. starting from an empty cache, no sequence of get/put operations ever
   makes the entry count exceed the configured capacity;
2. a put of a fresh key into a full cache evicts exactly the head of the
   order list — the least-recently-used entry — and nothing else;
3. a hit read returns the stored value and moves the entry to the
   most-recent end;
4. every put (insert or replace) leaves the written pair at the most-recent
   end;
5. concretely, with capacity 2, inserting A, B, C in order leaves a
   subsequent get(A) a miss while get(B) and get(C) hit. -/
theorem c2_lru_invariants :
    (∀ (α : Type) (cap : Int) (ops : List (CacheOp α)),
      ((runOps ⟨[], cap⟩ ops).entries.length : Int) ≤ max 0 cap)
    ∧ (∀ (α : Type) (c : LRUCache α) (k : String) (v : α),
        (∀ e ∈ c.entries, e.1 ≠ k) → (c.entries.length : Int) = c.cacheSize →
        1 ≤ c.entries.length →
        (putInCache c k v).entries = c.entries.drop 1 ++ [(k, v)])
    ∧ (∀ (α : Type) (c : LRUCache α) (k : String) (e : String × α),
        c.entries.find? (fun x => x.1 == k) = some e →
        (getFromCache c k).1 = some e.2
          ∧ (getFromCache c k).2.entries.getLast? = some e)
    ∧ (∀ (α : Type) (c : LRUCache α) (k : String) (v : α),
        0 < c.cacheSize → (putInCache c k v).entries.getLast? = some (k, v))
    ∧ ((getFromCache (runOps (⟨[], 2⟩ : LRUCache Nat)
          [.put "A" 0, .put "B" 1, .put "C" 2]) "A").1 = none
        ∧ (getFromCache (runOps (⟨[], 2⟩ : LRUCache Nat)
            [.put "A" 0, .put "B" 1, .put "C" 2]) "B").1 = some 1
        ∧ (getFromCache (runOps (⟨[], 2⟩ : LRUCache Nat)
            [.put "A" 0, .put "B" 1, .put "C" 2]) "C").1 = some 2) := by
  refine ⟨?_, ?_, ?_, ?_, ?_⟩
  · intro α cap ops
    have h := runOps_size_le (⟨[], cap⟩ : LRUCache α) ops (by simp)
    rwa [runOps_cacheSize] at h
  · intro α c k v hfresh hfull hpos
    rw [putInCache_fresh_entries c k v hfresh]
    unfold evictIfOver
    rw [if_pos (by simp; omega)]
    exact List.drop_append_of_le_length hpos
  · intro α c k e hf
    unfold getFromCache
    rw [hf]
    exact ⟨rfl, List.getLast?_concat _⟩
  · intro α c k v hposcap
    unfold putInCache evictIfOver
    split
    · rename_i hgt
      simp only [List.length_append, List.length_cons, List.length_nil] at hgt
      have hflen : 1 ≤ (c.entries.filter (fun e => e.1 != k)).length := by
        by_contra hlt
        push_cast at hgt
        omega
      rw [List.drop_append_of_le_length hflen]
      exact List.getLast?_concat _
    · exact List.getLast?_concat _
  · refine ⟨by decide, by decide, by decide⟩

/-- Witness for `c2_lru_invariants`: the hypotheses of its conditional parts
hold at concrete inputs (a full capacity-2 cache and a populated cache). -/
theorem c2_lru_invariants_witness :
    (putInCache (⟨[("A", 0), ("B", 1)], 2⟩ : LRUCache Nat) "C" 2).entries
      = [("B", 1), ("C", 2)]
    ∧ ((getFromCache (⟨[("A", 0), ("B", 1)], 2⟩ : LRUCache Nat)
        "A").2.entries.getLast? = some ("A", 0))
    ∧ (putInCache (⟨[("A", 0)], 2⟩ : LRUCache Nat) "B" 1).entries.getLast?
        = some ("B", 1) := by
  refine ⟨?_, ?_, ?_⟩
  · have h := c2_lru_invariants.2.1 Nat ⟨[("A", 0), ("B", 1)], 2⟩ "C" 2
      (by decide) (by decide) (by decide)
    simpa using h
  · exact (c2_lru_invariants.2.2.1 Nat ⟨[("A", 0), ("B", 1)], 2⟩ "A" ("A", 0)
      (by decide)).2
  · exact c2_lru_invariants.2.2.2.1 Nat ⟨[("A", 0)], 2⟩ "B" 1 (by decide)

/-- C9 counterexample: constructing the client with capacity 0 (and the
database file present) succeeds — `__init__` performs no capacity check, so
"capacity ≤ 0 is rejected at construction" is false. -/
theorem c9_counterexample :
    clientInit Nat true 0 = Except.ok ⟨[], 0⟩
      ∧ (clientInit Nat true 0).isOk = true := ⟨rfl, rfl⟩

/-- C9 (amended): construction never validates the capacity — its outcome
depends only on whether the database file exists; a cache constructed with
capacity ≤ 0 simply retains no entries (every put is immediately evicted);
and cache operations are total functions (they signal no errors). -/
theorem c9_no_capacity_validation :
    (∀ (α : Type) (cap : Int) (dbExists : Bool),
      (clientInit α dbExists cap).isOk = dbExists)
    ∧ (∀ (α : Type) (cap : Int), cap ≤ 0 → ∀ (k : String) (v : α),
        (putInCache (⟨[], cap⟩ : LRUCache α) k v).entries = [])
    ∧ (∀ (α : Type) (cap : Int) (ops : List (CacheOp α)), cap ≤ 0 →
        (runOps ⟨[], cap⟩ ops).entries = []) := by
  refine ⟨?_, ?_, ?_⟩
  · intro α cap dbExists
    unfold clientInit
    cases dbExists <;> rfl
  · intro α cap hcap k v
    exact putInCache_empty_cap_nonpos cap k v hcap
  · intro α cap ops hcap
    induction ops with
    | nil => rfl
    | cons op ops ih =>
      rw [runOps] at *
      simp only [List.foldl_cons]
      have hstate : applyOp (⟨[], cap⟩ : LRUCache α) op = ⟨[], cap⟩ := by
        cases op with
        | get k => rfl
        | put k v =>
          have h1 := putInCache_empty_cap_nonpos cap k v hcap
          have h2 := putInCache_cacheSize (⟨[], cap⟩ : LRUCache α) k v
          cases hq : putInCache (⟨[], cap⟩ : LRUCache α) k v with
          | mk es cs =>
            rw [hq] at h1 h2
            simp only [applyOp, hq]
            simp only at h1 h2
            rw [h1, h2]
      rw [hstate]
      exact ih

/-- Witness for `c9_no_capacity_validation` at capacity `-3 ≤ 0`. -/
theorem c9_no_capacity_validation_witness :
    (putInCache (⟨[], -3⟩ : LRUCache Nat) "k" 5).entries = []
    ∧ (runOps (⟨[], -3⟩ : LRUCache Nat) [.put "a" 1, .get "a"]).entries = [] :=
  ⟨c9_no_capacity_validation.2.1 Nat (-3) (by norm_num) "k" 5,
   c9_no_capacity_validation.2.2 Nat (-3) [.put "a" 1, .get "a"] (by norm_num)⟩

/-!
## Cache-key normalisation

`SQLiteClient._normalize_cache_value` / `_make_cache_key`
(`src/mcp_server/database/sqlite_client.py` lines 61-99).  Parameter values
are `None`, strings, lists of strings, or ints.  The Python code serialises
the name-sorted normalised items with `str()` and MD5-hashes the result; the
digest is a deterministic function of that item list, so two parameter maps
receive the identical key exactly when the normalised item lists coincide
(treating the hash as injective on the reachable key strings).  The embedding
therefore exposes the normalised item list itself as the key.
-/

/-- A raw parameter value, as passed to `_make_cache_key`. -/
inductive CacheVal where
  | nullv
  | str (s : String)
  | list (xs : List String)
  | int (i : Int)
deriving DecidableEq

/-- A normalised parameter value, as produced by `_normalize_cache_value`. -/
inductive NormVal where
  | nullv
  | str (s : String)
  | tup (xs : List String)
  | int (i : Int)
deriving DecidableEq

/-- Sort strings in code-point order (Python's `sorted` on `str`). -/
def sortStrings (l : List String) : List String :=
  List.insertionSort strLeRel l

/-- The normalised elements of a list value, before deduplication and
sorting: `[str(v).lower().strip() for v in value if str(v).strip()]`. -/
def normElems (xs : List String) : List String :=
  (xs.filter (fun v => trimStr v ≠ "")).map (fun v => trimStr (lowerStr v))

/-- `_normalize_cache_value`: `None` stays `None`; a string is lowercased and
stripped; a list is element-normalised, emptied of blanks, deduplicated and
sorted (`tuple(sorted(set(normalized)))`); other values pass through. -/
def normalizeCacheValue : CacheVal → NormVal
  | .nullv => .nullv
  | .str s => .str (trimStr (lowerStr s))
  | .list xs => .tup (sortStrings (normElems xs).dedup)
  | .int i => .int i

/-- `_make_cache_key`: normalise every value, then sort the items by
parameter name (`tuple(sorted(normalized.items()))`). -/
def makeCacheKey (params : List (String × CacheVal)) : List (String × NormVal) :=
  List.insertionSort (fun a b => strLeRel a.1 b.1)
    (params.map (fun kv => (kv.1, normalizeCacheValue kv.2)))

theorem sortStrings_sorted (l : List String) :
    (sortStrings l).Sorted strLeRel :=
  List.sorted_insertionSort strLeRel l

theorem sortStrings_perm (l : List String) : (sortStrings l).Perm l :=
  List.perm_insertionSort strLeRel l

/-- Two duplicate-free string lists with the same members sort identically. -/
theorem sortStrings_eq_of_mem_iff (l₁ l₂ : List String)
    (h₁ : l₁.Nodup) (h₂ : l₂.Nodup) (hmem : ∀ s, s ∈ l₁ ↔ s ∈ l₂) :
    sortStrings l₁ = sortStrings l₂ := by
  have hperm : l₁.Perm l₂ := (List.perm_ext_iff_of_nodup h₁ h₂).mpr hmem
  exact List.eq_of_perm_of_sorted
    ((sortStrings_perm l₁).trans (hperm.trans (sortStrings_perm l₂).symm))
    (sortStrings_sorted l₁) (sortStrings_sorted l₂)

/-- Normalised list values coincide as soon as the normalised element sets
coincide. -/
theorem normalizeCacheValue_list_eq (xs ys : List String)
    (hmem : ∀ s, s ∈ normElems xs ↔ s ∈ normElems ys) :
    normalizeCacheValue (.list xs) = normalizeCacheValue (.list ys) := by
  simp only [normalizeCacheValue, NormVal.tup.injEq]
  exact sortStrings_eq_of_mem_iff _ _ (List.nodup_dedup _) (List.nodup_dedup _)
    (by intro s; rw [List.mem_dedup, List.mem_dedup]; exact hmem s)

/-- C3 counterexample: the delimited-string presentation `["drama, action"]`
does NOT produce the same key as the list presentation `["Action","Drama"]`
(`_normalize_cache_value` never splits a string element on commas), so the
claim fails as stated. -/
theorem c3_counterexample :
    makeCacheKey [("genre", .list ["Action", "Drama"])]
      ≠ makeCacheKey [("genre", .list ["drama, action"])] := by decide

/-- C3 (amended): the cache key is invariant under casing, surrounding
whitespace, element order and duplication of a multi-valued filter value —
formally, under any change that preserves the set of lowercased, stripped,
non-blank elements — uniformly in all other parameters; a comma-delimited
single-string presentation is not normalised to the multi-element
presentation and generally yields a different key. -/
theorem c3_key_normalization :
    (∀ (ps qs : List (String × CacheVal)),
      List.Forall₂ (fun p q => p.1 = q.1
        ∧ (p.2 = q.2 ∨ ∃ xs ys, p.2 = .list xs ∧ q.2 = .list ys
            ∧ ∀ s, s ∈ normElems xs ↔ s ∈ normElems ys)) ps qs →
      makeCacheKey ps = makeCacheKey qs)
    ∧ (∀ (name : String) (xs ys : List String), xs.Perm ys →
        makeCacheKey [(name, .list xs)] = makeCacheKey [(name, .list ys)])
    ∧ (∀ (name : String) (xs : List String),
        makeCacheKey [(name, .list (xs ++ xs))]
          = makeCacheKey [(name, .list xs)])
    ∧ (makeCacheKey [("genre", .list ["Action", "Drama"])]
        = makeCacheKey [("genre", .list ["DRAMA ", "  action"])]) := by
  have main : ∀ (ps qs : List (String × CacheVal)),
      List.Forall₂ (fun p q => p.1 = q.1
        ∧ (p.2 = q.2 ∨ ∃ xs ys, p.2 = .list xs ∧ q.2 = .list ys
            ∧ ∀ s, s ∈ normElems xs ↔ s ∈ normElems ys)) ps qs →
      makeCacheKey ps = makeCacheKey qs := by
    intro ps qs hfa
    have hmap : ps.map (fun kv => (kv.1, normalizeCacheValue kv.2))
        = qs.map (fun kv => (kv.1, normalizeCacheValue kv.2)) := by
      induction hfa with
      | nil => rfl
      | cons hpq _ ih =>
        rename_i p q ps' qs' _
        simp only [List.map_cons, ih]
        obtain ⟨hname, hval⟩ := hpq
        rcases hval with hval | ⟨xs, ys, hx, hy, hmem⟩
        · rw [hname, hval]
        · rw [hname, hx, hy, normalizeCacheValue_list_eq xs ys hmem]
    unfold makeCacheKey
    rw [hmap]
  refine ⟨main, ?_, ?_, by decide⟩
  · intro name xs ys hperm
    refine main _ _ (List.forall₂_cons.mpr ⟨⟨rfl, Or.inr ⟨xs, ys, rfl, rfl, ?_⟩⟩,
      List.Forall₂.nil⟩)
    intro s
    unfold normElems
    constructor <;> intro hs
    · exact (hperm.filter _).map _ |>.mem_iff.mp hs
    · exact ((hperm.filter _).map _ |>.mem_iff).mpr hs
  · intro name xs
    refine main _ _ (List.forall₂_cons.mpr
      ⟨⟨rfl, Or.inr ⟨xs ++ xs, xs, rfl, rfl, ?_⟩⟩, List.Forall₂.nil⟩)
    intro s
    unfold normElems
    simp only [List.filter_append, List.map_append, List.mem_append, or_self]

/-- Witness for `c3_key_normalization` at a concrete permuted, re-cased,
re-spaced, duplicated genre list. -/
theorem c3_key_normalization_witness :
    makeCacheKey [("genre", .list ["Action", "Drama"])]
      = makeCacheKey [("genre", .list ["Drama", "Action", "Drama", "Action"])] :=
  c3_key_normalization.1 _ _
    (List.forall₂_cons.mpr ⟨⟨rfl, Or.inr ⟨["Action", "Drama"],
      ["Drama", "Action", "Drama", "Action"], rfl, rfl, by
        intro s
        have h1 : normElems ["Action", "Drama"] = ["action", "drama"] := by
          decide
        have h2 : normElems ["Drama", "Action", "Drama", "Action"]
            = ["drama", "action", "drama", "action"] := by decide
        rw [h1, h2]
        simp only [List.mem_cons, List.not_mem_nil, or_false]
        tauto⟩⟩,
      List.Forall₂.nil⟩)

/-!
## The ranked movie query

`SQLiteClient.query_movies` (`src/mcp_server/database/sqlite_client.py`
lines 129-304).  The generated SQL is interpreted over a list of movie rows:

* `escape_like` turns the filter text into a literal; a
  `LIKE '%...%' ESCAPE '\' COLLATE NOCASE` predicate is therefore an ASCII
  case-insensitive substring test (`likeContains`);
* `json_each(m.genres)` / `json_each(m."cast")` enumerate the JSON arrays,
  modelled as `List String` fields;
* the correlated `COUNT(*)` subqueries are `matchCount`;
* the outer `WHERE genre_matches >= 1 AND cast_matches >= 1` (each conjunct
  only when that filter is present) is `qualifies`;
* `ORDER BY CASE ... END DESC, {order_by} {order_dir}` is the lexicographic
  comparator `orderLe` (rank flag first, requested field second); SQL leaves
  the order of fully tied rows unspecified, and the embedding resolves it by
  a deterministic sort, one of the orders SQLite may produce;
* `LIMIT max(1, limit) OFFSET max(0, offset)` is the final window.

SQLite `REAL` columns (`rating`, `popularity`) only ever enter through their
ordering here, so they are modelled as integers; `release_date` is `TEXT`
compared under the BINARY collation, i.e. `strLe` on ASCII data.

Parameter binding.  The `?` placeholders occur in the generated SQL text in
the order genre patterns (line 243), cast patterns (line 248), base-`WHERE`
values (line 251), the four rank-`CASE` counts (lines 263-264), then
`LIMIT`/`OFFSET` (line 272) — but `query_params` (lines 275-279) lists
`base_params` first: `base + genre + cast + counts + limit/offset`.  SQLite
binds positionally, so whenever base filters and multi-valued filters are
both present the leading values are cross-wired: the genre/cast `LIKE`
placeholders receive base-filter values and the base clauses receive
genre/cast patterns.  Only the trailing six placeholders (counts, limit,
offset) always receive their own values, because the totals agree.

Two interpretations are therefore embedded.  `queryMovies` interprets the
query under the INTENDED binding — each filter value reaching its own
predicate — which coincides with the executed query whenever base filters
and multi-valued filters are not mixed (and for every query in the clamping
and `ORDER BY`-fallback equalities, whose two sides share identical SQL and
identical bindings).  `queryMoviesActual` below interprets the ACTUAL
positional binding for text-only base filters and exhibits the divergence.
-/

structure Movie where
  id : Int
  title : String
  year : Int
  director : String
  genres : List String
  cast : List String
  rating : Int
  popularity : Int
  vote_count : Int
  revenue : Int
  budget : Int
  runtime : Int
  release_date : String
deriving DecidableEq

/-- The parameters of `query_movies`, as typed in the Python signature. -/
structure QueryParams where
  genre : Option String
  year : Option Int
  year_min : Option Int
  year_max : Option Int
  cast : Option String
  director : Option String
  title : Option String
  limit : Int
  offset : Int
  order_by : String
  order_dir : String
deriving DecidableEq

/-- `normalize_list` (lines 174-180) for the string case used by
`query_movies`: split on commas, strip, drop blanks. -/
def normalizeList (val : Option String) : List String :=
  match val with
  | none => []
  | some s => ((splitCommaStr s).map trimStr).filter (fun x => x ≠ "")

/-- `value LIKE '%pat%' ESCAPE '\' COLLATE NOCASE` with `pat` escaped to a
literal: ASCII case-insensitive substring containment. -/
def likeContains (hay pat : String) : Bool :=
  containsSub (lowerStr hay).data (lowerStr pat).data

/-- The correlated `COUNT(*)` over `json_each`: how many elements of the
row's own multi-valued field match at least one requested value.  With no
requested values the generated predicate is the literal `0`, so the count
is 0. -/
def matchCount (field : List String) (qs : List String) : Nat :=
  (field.filter (fun v => qs.any (fun q => likeContains v q))).length

/-- The base `WHERE` clauses (lines 196-218): exact year (range filters
ignored when `year` is set), otherwise the optional year range; then the
substring filters on director and title, skipped for `None` or `""` (Python
truthiness). -/
def baseFilter (p : QueryParams) (m : Movie) : Bool :=
  (match p.year with
   | some y => m.year == y
   | none =>
     (match p.year_min with
      | some lo => decide (lo ≤ m.year)
      | none => true) &&
     (match p.year_max with
      | some hi => decide (m.year ≤ hi)
      | none => true)) &&
  (match p.director with
   | some d => if d = "" then true else likeContains m.director d
   | none => true) &&
  (match p.title with
   | some t => if t = "" then true else likeContains m.title t
   | none => true)

/-- The outer `WHERE` (lines 254-260): each present multi-valued filter must
have at least one match. -/
def qualifies (gq cq : List String) (m : Movie) : Bool :=
  (decide (gq.length = 0) || decide (1 ≤ matchCount m.genres gq)) &&
  (decide (cq.length = 0) || decide (1 ≤ matchCount m.cast cq))

/-- The ranking `CASE` expression (lines 262-265):
`(?=0 OR genre_matches >= ?) AND (?=0 OR cast_matches >= ?)` with both
placeholders bound to the respective filter's value count. -/
def rankFlag (gq cq : List String) (m : Movie) : Bool :=
  (decide (gq.length = 0) || decide (gq.length ≤ matchCount m.genres gq)) &&
  (decide (cq.length = 0) || decide (cq.length ≤ matchCount m.cast cq))

/-- The allow-list of sortable fields (lines 187-190). -/
def ORDERABLE_FIELDS : List String :=
  ["id", "title", "year", "rating", "popularity",
   "vote_count", "revenue", "budget", "runtime", "release_date"]

/-- Line 191: `order_by = order_by if order_by in ORDERABLE_FIELDS else "year"`. -/
def resolveOrderBy (s : String) : String :=
  if ORDERABLE_FIELDS.contains s then s else "year"

/-- Line 192: `order_dir = "DESC" if str(order_dir).upper() == "DESC" else "ASC"`. -/
def resolveOrderDir (s : String) : String :=
  if upperStr s = "DESC" then "DESC" else "ASC"

/-- SQLite comparison `a.{field} <= b.{field}` for each orderable column. -/
def fieldLe (f : String) (a b : Movie) : Bool :=
  if f = "id" then decide (a.id ≤ b.id)
  else if f = "title" then strLe a.title b.title
  else if f = "year" then decide (a.year ≤ b.year)
  else if f = "rating" then decide (a.rating ≤ b.rating)
  else if f = "popularity" then decide (a.popularity ≤ b.popularity)
  else if f = "vote_count" then decide (a.vote_count ≤ b.vote_count)
  else if f = "revenue" then decide (a.revenue ≤ b.revenue)
  else if f = "budget" then decide (a.budget ≤ b.budget)
  else if f = "runtime" then decide (a.runtime ≤ b.runtime)
  else if f = "release_date" then strLe a.release_date b.release_date
  else true

/-- `ORDER BY {field} {dir}`: `DESC` flips the column comparison. -/
def dirLe (d f : String) (a b : Movie) : Bool :=
  if d = "DESC" then fieldLe f b a else fieldLe f a b

/-- The full `ORDER BY {rank CASE} DESC, {order_by} {order_dir}` comparator:
rows with rank flag 1 come before rows with flag 0; ties fall through to the
requested column and direction. -/
def orderLe (gq cq : List String) (f d : String) (a b : Movie) : Bool :=
  if rankFlag gq cq a = rankFlag gq cq b then dirLe d f a b
  else rankFlag gq cq a

/-- `orderLe` as a Prop-valued relation, for `List.insertionSort`. -/
def movieRel (gq cq : List String) (f d : String) (a b : Movie) : Prop :=
  orderLe gq cq f d a b = true

instance (gq cq : List String) (f d : String) :
    DecidableRel (movieRel gq cq f d) :=
  fun a b => inferInstanceAs (Decidable (orderLe gq cq f d a b = true))

/-- The rows surviving both `WHERE` layers, under the intended binding of
each filter value to its own predicate (see the section comment: the
executed query cross-binds these values when base and multi-valued filters
are mixed — `queryMoviesActual` models that). -/
def movieFiltered (table : List Movie) (p : QueryParams) : List Movie :=
  (table.filter (fun m => baseFilter p m)).filter
    (fun m => qualifies (normalizeList p.genre) (normalizeList p.cast) m)

/-- The rows in ranked order, before pagination. -/
def movieRanked (table : List Movie) (p : QueryParams) : List Movie :=
  List.insertionSort
    (movieRel (normalizeList p.genre) (normalizeList p.cast)
      (resolveOrderBy p.order_by) (resolveOrderDir p.order_dir))
    (movieFiltered table p)

/-- `query_movies` applied to a table of rows under the intended parameter
binding: filter, rank, then the `LIMIT max(1, limit) OFFSET max(0, offset)`
window (line 278; these trailing placeholders always bind correctly). -/
def queryMovies (table : List Movie) (p : QueryParams) : List Movie :=
  ((movieRanked table p).drop (max 0 p.offset).toNat).take (max 1 p.limit).toNat

set_option maxHeartbeats 1600000 in
theorem fieldLe_total (f : String) (a b : Movie) :
    fieldLe f a b = true ∨ fieldLe f b a = true := by
  unfold fieldLe
  split_ifs
  · simp only [decide_eq_true_eq]; exact le_total _ _
  · exact lexLeChars_total _ _
  · simp only [decide_eq_true_eq]; exact le_total _ _
  · simp only [decide_eq_true_eq]; exact le_total _ _
  · simp only [decide_eq_true_eq]; exact le_total _ _
  · simp only [decide_eq_true_eq]; exact le_total _ _
  · simp only [decide_eq_true_eq]; exact le_total _ _
  · simp only [decide_eq_true_eq]; exact le_total _ _
  · simp only [decide_eq_true_eq]; exact le_total _ _
  · exact lexLeChars_total _ _
  · left; rfl

set_option maxHeartbeats 1600000 in
theorem fieldLe_trans (f : String) (a b c : Movie)
    (h₁ : fieldLe f a b = true) (h₂ : fieldLe f b c = true) :
    fieldLe f a c = true := by
  unfold fieldLe at h₁ h₂ ⊢
  split_ifs at h₁ h₂ ⊢
  · simp only [decide_eq_true_eq] at h₁ h₂ ⊢; exact le_trans h₁ h₂
  · exact lexLeChars_trans _ _ _ h₁ h₂
  · simp only [decide_eq_true_eq] at h₁ h₂ ⊢; exact le_trans h₁ h₂
  · simp only [decide_eq_true_eq] at h₁ h₂ ⊢; exact le_trans h₁ h₂
  · simp only [decide_eq_true_eq] at h₁ h₂ ⊢; exact le_trans h₁ h₂
  · simp only [decide_eq_true_eq] at h₁ h₂ ⊢; exact le_trans h₁ h₂
  · simp only [decide_eq_true_eq] at h₁ h₂ ⊢; exact le_trans h₁ h₂
  · simp only [decide_eq_true_eq] at h₁ h₂ ⊢; exact le_trans h₁ h₂
  · simp only [decide_eq_true_eq] at h₁ h₂ ⊢; exact le_trans h₁ h₂
  · exact lexLeChars_trans _ _ _ h₁ h₂
  · rfl

theorem dirLe_total (d f : String) (a b : Movie) :
    dirLe d f a b = true ∨ dirLe d f b a = true := by
  unfold dirLe
  split_ifs
  · rcases fieldLe_total f b a with h | h
    · exact Or.inl h
    · exact Or.inr h
  · exact fieldLe_total f a b

theorem dirLe_trans (d f : String) (a b c : Movie)
    (h₁ : dirLe d f a b = true) (h₂ : dirLe d f b c = true) :
    dirLe d f a c = true := by
  unfold dirLe at h₁ h₂ ⊢
  split_ifs at h₁ h₂ ⊢
  · exact fieldLe_trans f c b a h₂ h₁
  · exact fieldLe_trans f a b c h₁ h₂

theorem orderLe_total (gq cq : List String) (f d : String) (a b : Movie) :
    orderLe gq cq f d a b = true ∨ orderLe gq cq f d b a = true := by
  unfold orderLe
  by_cases h : rankFlag gq cq a = rankFlag gq cq b
  · rw [if_pos h, if_pos h.symm]
    exact dirLe_total d f a b
  · rw [if_neg h, if_neg (fun e => h e.symm)]
    cases hra : rankFlag gq cq a with
    | true => exact Or.inl rfl
    | false =>
      cases hrb : rankFlag gq cq b with
      | true => exact Or.inr rfl
      | false => exact absurd (hra.trans hrb.symm) h

theorem orderLe_trans (gq cq : List String) (f d : String) (a b c : Movie)
    (h₁ : orderLe gq cq f d a b = true) (h₂ : orderLe gq cq f d b c = true) :
    orderLe gq cq f d a c = true := by
  unfold orderLe at h₁ h₂ ⊢
  by_cases hab : rankFlag gq cq a = rankFlag gq cq b <;>
    by_cases hbc : rankFlag gq cq b = rankFlag gq cq c
  · rw [if_pos hab] at h₁
    rw [if_pos hbc] at h₂
    rw [if_pos (hab.trans hbc)]
    exact dirLe_trans d f a b c h₁ h₂
  · rw [if_pos hab] at h₁
    rw [if_neg hbc] at h₂
    rw [if_neg (by rw [hab]; exact hbc)]
    rw [hab]
    exact h₂
  · rw [if_neg hab] at h₁
    rw [if_neg (by rw [← hbc]; exact hab)]
    exact h₁
  · rw [if_neg hab] at h₁
    rw [if_neg hbc] at h₂
    exact absurd (h₁.trans h₂.symm) hab

/-- Concrete rows and parameters for witnesses. -/
def sampleMovie1 : Movie :=
  ⟨1, "Heat", 1995, "Mann", ["Action", "Crime"], ["Pacino"],
   8, 50, 1000, 100, 50, 170, "1995-12-15"⟩

def sampleParams : QueryParams :=
  ⟨some "Action", none, none, none, none, none, none, 10, 0, "rating", "DESC"⟩

/-!
## C1 code bug — the actual positional parameter binding

The values the leading placeholders actually receive are, in order, the
base-filter pattern texts, then the genre values, then the cast values
(`query_params`, lines 275-279), consumed by the placeholders in their
textual order: genre first, cast second, base last (lines 237-252).  Every
string value in these lists is a `%escape_like(v)%` pattern, so semantically
it is a case-insensitive substring needle for the original filter text; the
shuffle below permutes which needle reaches which predicate.  This
interpretation is faithful for queries whose base filters are text-only
(`year`/`year_min`/`year_max` absent): a year filter would put an integer
into a `LIKE` placeholder, whose SQLite affinity coercion is outside this
model.  The failing input below has no year filter.
-/

/-- The base-`WHERE` pattern texts, in the order `base_params` lists them
(director clause first, then title; a year filter would precede them but is
excluded here — see above). -/
def basePatternTexts (p : QueryParams) : List String :=
  (match p.director with
   | some d => if d = "" then [] else [d]
   | none => []) ++
  (match p.title with
   | some t => if t = "" then [] else [t]
   | none => [])

/-- The column each present base clause tests, in the same order. -/
def presentTextFilters (p : QueryParams) : List (Movie → String) :=
  (match p.director with
   | some d => if d = "" then [] else [fun m => m.director]
   | none => []) ++
  (match p.title with
   | some t => if t = "" then [] else [fun m => m.title]
   | none => [])

/-- The base `WHERE` under the actual binding: each present clause tests its
column against the needle it positionally received. -/
def baseFilterActual (p : QueryParams) (bvals : List String) (m : Movie) : Bool :=
  ((presentTextFilters p).zip bvals).all (fun fv => likeContains (fv.1 m) fv.2)

/-- The outer `WHERE` with the match counts taken against the needles the
genre/cast placeholders actually received; the presence tests still use the
true value counts (they are Python-side, lines 254-258). -/
def qualifiesWith (gcount ccount : Nat) (gvals cvals : List String)
    (m : Movie) : Bool :=
  (decide (gcount = 0) || decide (1 ≤ matchCount m.genres gvals)) &&
  (decide (ccount = 0) || decide (1 ≤ matchCount m.cast cvals))

/-- The rank `CASE` with cross-bound needles; the four count placeholders are
trailing and bind correctly (lines 263-264, 277). -/
def rankFlagWith (gcount ccount : Nat) (gvals cvals : List String)
    (m : Movie) : Bool :=
  (decide (gcount = 0) || decide (gcount ≤ matchCount m.genres gvals)) &&
  (decide (ccount = 0) || decide (ccount ≤ matchCount m.cast cvals))

/-- The `ORDER BY` comparator under the actual binding. -/
def orderLeWith (gcount ccount : Nat) (gvals cvals : List String)
    (f d : String) (a b : Movie) : Bool :=
  if rankFlagWith gcount ccount gvals cvals a
      = rankFlagWith gcount ccount gvals cvals b then dirLe d f a b
  else rankFlagWith gcount ccount gvals cvals a

/-- `orderLeWith` as a Prop-valued relation. -/
def movieRelWith (gcount ccount : Nat) (gvals cvals : List String)
    (f d : String) (a b : Movie) : Prop :=
  orderLeWith gcount ccount gvals cvals f d a b = true

instance (gcount ccount : Nat) (gvals cvals : List String) (f d : String) :
    DecidableRel (movieRelWith gcount ccount gvals cvals f d) :=
  fun a b =>
    inferInstanceAs (Decidable (orderLeWith gcount ccount gvals cvals f d a b = true))

/-- `query_movies` as actually executed (text-only base filters): the bound
value list `base ++ genre ++ cast` is consumed by the placeholders in their
textual order genre, cast, base. -/
def queryMoviesActual (table : List Movie) (p : QueryParams) : List Movie :=
  let gq := normalizeList p.genre
  let cq := normalizeList p.cast
  let vals := basePatternTexts p ++ gq ++ cq
  let gvals := vals.take gq.length
  let cvals := (vals.drop gq.length).take cq.length
  let bvals := vals.drop (gq.length + cq.length)
  let filtered := (table.filter (fun m => baseFilterActual p bvals m)).filter
    (fun m => qualifiesWith gq.length cq.length gvals cvals m)
  let ranked := List.insertionSort
    (movieRelWith gq.length cq.length gvals cvals
      (resolveOrderBy p.order_by) (resolveOrderDir p.order_dir)) filtered
  ((ranked.drop (max 0 p.offset).toNat).take (max 1 p.limit).toNat)

/-- The failing input: `genre="Hea,Action"`, `title="Drama"`. -/
def bugParams : QueryParams :=
  ⟨some "Hea,Action", none, none, none, none, none, some "Drama",
   10, 0, "year", "DESC"⟩

/-- A row titled "Action Movie" with genres `["Drama","Heat"]`. -/
def bugRow : Movie :=
  ⟨3, "Action Movie", 2000, "Someone", ["Drama", "Heat"], [],
   5, 5, 5, 5, 5, 100, "2000-01-01"⟩

/-- C1 (code bug): the claimed ranking semantics is the evident intent, but
`query_params` lists the base values before the genre/cast patterns while
the placeholders occur genre/cast-first, so mixed queries cross-bind their
filter values.  At `genre="Hea,Action"`, `title="Drama"`: the genre `LIKE`
placeholders receive `%Drama%`/`%Hea%` and the title clause `%Action%`, so
the executed query returns the row "Action Movie" (genres
`["Drama","Heat"]`) with rank flag 1, while under the claimed semantics the
row is excluded (its title does not contain "Drama") and its flag against
the requested genres would be 0 (only 1 of 2 matches). -/
theorem c1_failing_input :
    ((basePatternTexts bugParams ++ normalizeList bugParams.genre
        ++ normalizeList bugParams.cast).take 2 = ["Drama", "Hea"])
    ∧ queryMoviesActual [bugRow] bugParams = [bugRow]
    ∧ rankFlagWith 2 0 ["Drama", "Hea"] [] bugRow = true
    ∧ queryMovies [bugRow] bugParams = []
    ∧ baseFilter bugParams bugRow = false
    ∧ rankFlag (normalizeList bugParams.genre) (normalizeList bugParams.cast)
        bugRow = false := by decide

/-- C6 counterexample: `query_movies` falls back to ordering by `year`, not
by `rating` as the spec states, and an unrecognised `order_dir` falls back
to `ASC`, not `DESC`. -/
theorem c6_counterexample :
    resolveOrderBy "popcorn" = "year" ∧ resolveOrderBy "popcorn" ≠ "rating"
    ∧ resolveOrderDir "sideways" = "ASC"
    ∧ resolveOrderDir "sideways" ≠ "DESC" := by decide

/-- C6 (amended): an `order_by` outside the allow-list does not raise — the
query runs as if `order_by` were the default field `year`; an `order_dir`
whose upper-casing is not `DESC` likewise falls back to `ASC`.  (In the
embedding `queryMovies` is a total function, so no error path exists.) -/
theorem c6_order_fallback :
    (∀ s : String, s ∉ ORDERABLE_FIELDS → resolveOrderBy s = "year")
    ∧ (∀ d : String, upperStr d ≠ "DESC" → resolveOrderDir d = "ASC")
    ∧ (∀ (table : List Movie) (p : QueryParams), p.order_by ∉ ORDERABLE_FIELDS →
        queryMovies table p = queryMovies table { p with order_by := "year" })
    ∧ (∀ (table : List Movie) (p : QueryParams), upperStr p.order_dir ≠ "DESC" →
        queryMovies table p = queryMovies table { p with order_dir := "ASC" }) := by
  have h1 : ∀ s : String, s ∉ ORDERABLE_FIELDS → resolveOrderBy s = "year" := by
    intro s hs
    unfold resolveOrderBy
    rw [if_neg]
    simpa using hs
  have h2 : ∀ d : String, upperStr d ≠ "DESC" → resolveOrderDir d = "ASC" := by
    intro d hd
    unfold resolveOrderDir
    rw [if_neg hd]
  refine ⟨h1, h2, ?_, ?_⟩
  · intro table p hob
    have e1 : resolveOrderBy p.order_by = "year" := h1 _ hob
    have e2 : resolveOrderBy ({ p with order_by := "year" } : QueryParams).order_by
        = "year" := rfl
    simp only [queryMovies, movieRanked, movieFiltered]
    rw [e1, e2]
    rfl
  · intro table p hod
    have e1 : resolveOrderDir p.order_dir = "ASC" := h2 _ hod
    have e2 : resolveOrderDir ({ p with order_dir := "ASC" } : QueryParams).order_dir
        = "ASC" := rfl
    simp only [queryMovies, movieRanked, movieFiltered]
    rw [e1, e2]
    rfl

/-- Witness for `c6_order_fallback` at the unknown field name `bogus` and
direction `sideways`. -/
theorem c6_order_fallback_witness :
    resolveOrderBy "bogus" = "year"
    ∧ queryMovies [sampleMovie1] { sampleParams with order_by := "bogus" }
        = queryMovies [sampleMovie1]
            { { sampleParams with order_by := "bogus" } with order_by := "year" }
    ∧ queryMovies [sampleMovie1] { sampleParams with order_dir := "sideways" }
        = queryMovies [sampleMovie1]
            { { sampleParams with order_dir := "sideways" } with
              order_dir := "ASC" } :=
  ⟨c6_order_fallback.1 "bogus" (by decide),
   c6_order_fallback.2.2.1 _ _ (by decide),
   c6_order_fallback.2.2.2 _ _ (by decide)⟩

/-- C10: pagination is clamped, never rejected — for every integer `limit`
and `offset` (including `limit < 1` and `offset < 0`) the query computes the
window of `max(1, limit)` rows starting at `max(0, offset)` of the ranked
order; clamping the parameters up front does not change the result, and the
result never holds more than `max(1, limit)` rows.  (`queryMovies` is a
total function: no out-of-contract value raises.) -/
theorem c10_pagination_clamp :
    (∀ (table : List Movie) (p : QueryParams),
      queryMovies table p
        = queryMovies table
            { p with limit := max 1 p.limit, offset := max 0 p.offset })
    ∧ (∀ (table : List Movie) (p : QueryParams),
        (queryMovies table p).length ≤ (max 1 p.limit).toNat)
    ∧ (∀ (table : List Movie) (p : QueryParams), p.limit ≤ 0 →
        queryMovies table p = queryMovies table { p with limit := 1 })
    ∧ (∀ (table : List Movie) (p : QueryParams), p.offset ≤ 0 →
        queryMovies table p = queryMovies table { p with offset := 0 }) := by
  refine ⟨?_, ?_, ?_, ?_⟩
  · intro table p
    simp only [queryMovies, movieRanked, movieFiltered]
    rw [show max 0 (max 0 p.offset) = max 0 p.offset by omega,
      show max 1 (max 1 p.limit) = max 1 p.limit by omega]
    rfl
  · intro table p
    simp only [queryMovies]
    exact List.length_take_le _ _
  · intro table p hlim
    simp only [queryMovies, movieRanked, movieFiltered]
    rw [show max 1 (1 : Int) = max 1 p.limit by omega]
    rfl
  · intro table p hoff
    simp only [queryMovies, movieRanked, movieFiltered]
    rw [show max 0 (0 : Int) = max 0 p.offset by omega]
    rfl

/-- Witness for `c10_pagination_clamp` at `limit = -5`, `offset = -3`. -/
theorem c10_pagination_clamp_witness :
    queryMovies [sampleMovie1] { sampleParams with limit := -5 }
      = queryMovies [sampleMovie1]
          { { sampleParams with limit := -5 } with limit := 1 }
    ∧ queryMovies [sampleMovie1] { sampleParams with offset := -3 }
        = queryMovies [sampleMovie1]
            { { sampleParams with offset := -3 } with offset := 0 } :=
  ⟨c10_pagination_clamp.2.2.1 _ _ (by norm_num),
   c10_pagination_clamp.2.2.2 _ _ (by norm_num)⟩

/-!
## The session layer

`api/db_sqlite.py` (`get_chat`, `update_chat_status`, the `chats` table) and
`api/api.py` (`validate_chat_pair`, `archive_chat`, `unarchive_chat`).  The
durable store is a list of chat rows (`chat_id` is the primary key); the fast
cache is an association list from `(user_id, chat_id)` to the cached status
string, `setex` overwriting any previous binding.  TTL expiry is not part of
these claims (they are about reads immediately after a write, inside the TTL
window), so entries do not age.
-/

/-- `ChatStatus` (db_sqlite.py lines 22-25). -/
inductive ChatStatus where
  | active
  | archived
deriving DecidableEq

/-- The `.value` string of a status. -/
def ChatStatus.value : ChatStatus → String
  | .active => "active"
  | .archived => "archived"

/-- A row of the `chats` table (timestamps omitted: no claim reads them). -/
structure Chat where
  chat_id : String
  user_id : String
  status : String
deriving DecidableEq

/-- `get_chat` (db_sqlite.py lines 225-261): the row matching both
`chat_id = ?` and `user_id = ?`, ownership enforced by the query itself. -/
def get_chat (db : List Chat) (chat_id user_id : String) : Option Chat :=
  db.find? (fun ch => ch.chat_id == chat_id && ch.user_id == user_id)

/-- `update_chat_status` (db_sqlite.py lines 264-300): set the status on the
rows matching both ids; report whether any row was affected
(`rows_affected > 0`). -/
def update_chat_status (db : List Chat) (chat_id user_id : String)
    (st : ChatStatus) : List Chat × Bool :=
  (db.map (fun ch =>
    if ch.chat_id == chat_id && ch.user_id == user_id then
      { ch with status := st.value }
    else ch),
   db.any (fun ch => ch.chat_id == chat_id && ch.user_id == user_id))

/-- The fast cache for `(user_id, chat_id) -> status`. -/
abbrev PairCache := List ((String × String) × String)

/-- `cache_set_chat_pair` (cache_redis.py lines 152-182): `setex` overwrites
the binding for the key. -/
def cache_set_chat_pair (cache : PairCache) (u c st : String) : PairCache :=
  ((u, c), st) :: cache.filter (fun e => !(e.1 == (u, c)))

/-- `cache_get_chat_pair` (cache_redis.py lines 185-213): the cached status,
or `None` on a miss. -/
def cache_get_chat_pair (cache : PairCache) (u c : String) : Option String :=
  (cache.find? (fun e => e.1 == (u, c))).map (fun e => e.2)

/-- The error outcomes of the API helpers (`HTTPException` status classes). -/
inductive ApiError where
  | notFound (detail : String)
  | badRequest (detail : String)
  | internal (detail : String)
deriving DecidableEq

/-- The cache-miss branch of `validate_chat_pair` (api.py lines 282-295):
query the durable store; on a match cache the status and return it; else a
404 whose detail mentions only the chat id. -/
def validate_chat_pair_db (db : List Chat) (cache : PairCache) (u c : String) :
    Except ApiError (String × PairCache) :=
  match get_chat db c u with
  | none => .error (.notFound ("Chat not found or unauthorized: " ++ c))
  | some chat => .ok (chat.status, cache_set_chat_pair cache u c chat.status)

/-- `validate_chat_pair` (api.py lines 255-304): check the fast cache first
(`if cached_status:` — Python truthiness, so an empty string is a miss);
fall back to the durable store on a miss. -/
def validate_chat_pair (db : List Chat) (cache : PairCache) (u c : String) :
    Except ApiError (String × PairCache) :=
  match cache_get_chat_pair cache u c with
  | some st =>
    if st = "" then validate_chat_pair_db db cache u c else .ok (st, cache)
  | none => validate_chat_pair_db db cache u c

/-- The shared body of `archive_chat` (api.py lines 562-623) and
`unarchive_chat` (lines 626-687): validate the pair, delegate the transition
to the durable store scoped by both ids, 404 when no row was affected, and on
success overwrite the fast-cache entry with the new status. -/
def set_status_endpoint (st : ChatStatus) (db : List Chat) (cache : PairCache)
    (u c : String) : Except ApiError (String × List Chat × PairCache) :=
  match validate_chat_pair db cache u c with
  | .error e => .error e
  | .ok (_, cache1) =>
    if (update_chat_status db c u st).2 then
      .ok (st.value, (update_chat_status db c u st).1,
        cache_set_chat_pair cache1 u c st.value)
    else .error (.notFound ("Chat not found or unauthorized: " ++ c))

/-- `archive_chat`. -/
def archive_chat : List Chat → PairCache → String → String →
    Except ApiError (String × List Chat × PairCache) :=
  set_status_endpoint .archived

/-- `unarchive_chat`. -/
def unarchive_chat : List Chat → PairCache → String → String →
    Except ApiError (String × List Chat × PairCache) :=
  set_status_endpoint .active

theorem cache_get_set (cache : PairCache) (u c st : String) :
    cache_get_chat_pair (cache_set_chat_pair cache u c st) u c = some st := by
  unfold cache_get_chat_pair cache_set_chat_pair
  rw [List.find?_cons_of_pos _ (by simp)]
  rfl

theorem find?_map_update (l : List Chat) (c u s : String) :
    List.find? (fun ch => ch.chat_id == c && ch.user_id == u)
      (l.map (fun ch =>
        if ch.chat_id == c && ch.user_id == u then { ch with status := s }
        else ch))
    = (List.find? (fun ch => ch.chat_id == c && ch.user_id == u) l).map
        (fun ch => { ch with status := s }) := by
  induction l with
  | nil => rfl
  | cons a l ih =>
    simp only [List.map_cons]
    by_cases ha : (a.chat_id == c && a.user_id == u) = true
    · rw [if_pos ha]
      have ha2 : ((⟨a.chat_id, a.user_id, s⟩ : Chat).chat_id == c
          && (⟨a.chat_id, a.user_id, s⟩ : Chat).user_id == u) = true := ha
      simp only [List.find?_cons, ha, ha2, Option.map_some]
      rfl
    · rw [if_neg ha]
      have ha2 : (a.chat_id == c && a.user_id == u) = false := by
        simpa using ha
      simp only [List.find?_cons, ha2]
      exact ih

theorem get_chat_update (db : List Chat) (c u : String) (st : ChatStatus) :
    get_chat (update_chat_status db c u st).1 c u
      = (get_chat db c u).map (fun ch => { ch with status := st.value }) := by
  unfold get_chat update_chat_status
  exact find?_map_update db c u st.value

theorem update_chat_status_success (db : List Chat) (c u : String)
    (st : ChatStatus) (ch : Chat) (hget : get_chat db c u = some ch) :
    (update_chat_status db c u st).2 = true := by
  unfold get_chat at hget
  have hmem : ch ∈ db := List.mem_of_find?_eq_some hget
  have hpred : (ch.chat_id == c && ch.user_id == u) = true :=
    List.find?_some (p := fun x : Chat => x.chat_id == c && x.user_id == u) hget
  unfold update_chat_status
  show db.any (fun x => x.chat_id == c && x.user_id == u) = true
  exact List.any_eq_true.mpr ⟨ch, hmem, hpred⟩

theorem validate_chat_pair_cache_none (db : List Chat) (cache : PairCache)
    (u c : String) (hc : cache_get_chat_pair cache u c = none) :
    validate_chat_pair db cache u c = validate_chat_pair_db db cache u c := by
  unfold validate_chat_pair
  rw [hc]

theorem validate_chat_pair_cache_some (db : List Chat) (cache : PairCache)
    (u c st : String) (hc : cache_get_chat_pair cache u c = some st) :
    validate_chat_pair db cache u c
      = if st = "" then validate_chat_pair_db db cache u c
        else .ok (st, cache) := by
  unfold validate_chat_pair
  rw [hc]

theorem validate_ok_of_get (db : List Chat) (cache : PairCache) (u c : String)
    (ch : Chat) (hget : get_chat db c u = some ch) :
    ∃ (st : String) (cache1 : PairCache),
      validate_chat_pair db cache u c = .ok (st, cache1) := by
  have hdbres : ∃ (st1 : String) (cache1 : PairCache),
      validate_chat_pair_db db cache u c = .ok (st1, cache1) := by
    unfold validate_chat_pair_db
    rw [hget]
    exact ⟨ch.status, _, rfl⟩
  cases hc : cache_get_chat_pair cache u c with
  | none => rw [validate_chat_pair_cache_none db cache u c hc]; exact hdbres
  | some st =>
    rw [validate_chat_pair_cache_some db cache u c st hc]
    by_cases hst : st = ""
    · rw [if_pos hst]; exact hdbres
    · rw [if_neg hst]; exact ⟨st, cache, rfl⟩

/-- C4 ("status round-trip", "overwritten, not merely invalidated"): for any
chat row owned by the caller, archiving succeeds and leaves the fast-cache
entry for the pair overwritten with `archived` (readable immediately, no TTL
wait); unarchiving then succeeds and leaves both the durable row and the
cached status at `active`. -/
theorem c4_status_roundtrip (db : List Chat) (cache : PairCache)
    (u c : String) (ch : Chat) (hget : get_chat db c u = some ch) :
    ∃ (db1 db2 : List Chat) (cache1 cache2 : PairCache),
      archive_chat db cache u c = .ok ("archived", db1, cache1)
      ∧ cache_get_chat_pair cache1 u c = some "archived"
      ∧ get_chat db1 c u = some { ch with status := "archived" }
      ∧ unarchive_chat db1 cache1 u c = .ok ("active", db2, cache2)
      ∧ cache_get_chat_pair cache2 u c = some "active"
      ∧ get_chat db2 c u = some { ch with status := "active" } := by
  obtain ⟨st0, cacheV, hval⟩ := validate_ok_of_get db cache u c ch hget
  have hupd1 : (update_chat_status db c u ChatStatus.archived).2 = true :=
    update_chat_status_success db c u ChatStatus.archived ch hget
  set db1 := (update_chat_status db c u ChatStatus.archived).1 with hdb1
  set cache1 := cache_set_chat_pair cacheV u c "archived" with hcache1
  have hget1 : get_chat db1 c u = some { ch with status := "archived" } := by
    rw [hdb1, get_chat_update, hget]
    rfl
  have harch : archive_chat db cache u c = .ok ("archived", db1, cache1) := by
    unfold archive_chat set_status_endpoint
    rw [hval, hupd1]
    rfl
  have hcget1 : cache_get_chat_pair cache1 u c = some "archived" := by
    rw [hcache1]
    exact cache_get_set cacheV u c "archived"
  have hval2 : validate_chat_pair db1 cache1 u c = .ok ("archived", cache1) := by
    unfold validate_chat_pair
    rw [hcget1]
    rfl
  have hupd2 : (update_chat_status db1 c u ChatStatus.active).2 = true :=
    update_chat_status_success db1 c u ChatStatus.active _ hget1
  set db2 := (update_chat_status db1 c u ChatStatus.active).1 with hdb2
  set cache2 := cache_set_chat_pair cache1 u c "active" with hcache2
  have hget2 : get_chat db2 c u = some { ch with status := "active" } := by
    rw [hdb2, get_chat_update, hget1]
    rfl
  have hunarch : unarchive_chat db1 cache1 u c = .ok ("active", db2, cache2) := by
    unfold unarchive_chat set_status_endpoint
    rw [hval2, hupd2]
    rfl
  exact ⟨db1, db2, cache1, cache2, harch, hcget1, hget1, hunarch,
    cache_get_set cache1 u c "active", hget2⟩

/-- Witness for `c4_status_roundtrip` on a one-row store. -/
theorem c4_status_roundtrip_witness :
    ∃ (db1 db2 : List Chat) (cache1 cache2 : PairCache),
      archive_chat [⟨"chat-1", "user-1", "active"⟩] [] "user-1" "chat-1"
        = .ok ("archived", db1, cache1)
      ∧ cache_get_chat_pair cache1 "user-1" "chat-1" = some "archived"
      ∧ get_chat db1 "chat-1" "user-1" = some ⟨"chat-1", "user-1", "archived"⟩
      ∧ unarchive_chat db1 cache1 "user-1" "chat-1" = .ok ("active", db2, cache2)
      ∧ cache_get_chat_pair cache2 "user-1" "chat-1" = some "active"
      ∧ get_chat db2 "chat-1" "user-1" = some ⟨"chat-1", "user-1", "active"⟩ :=
  c4_status_roundtrip [⟨"chat-1", "user-1", "active"⟩] [] "user-1" "chat-1"
    ⟨"chat-1", "user-1", "active"⟩ (by decide)

theorem get_chat_eq_none_of (db : List Chat) (u c : String)
    (h : ∀ ch ∈ db, ¬(ch.chat_id = c ∧ ch.user_id = u)) :
    get_chat db c u = none := by
  unfold get_chat
  rw [List.find?_eq_none]
  intro x hx
  simp only [Bool.and_eq_true, beq_iff_eq, not_and]
  intro h1 h2
  exact h x hx ⟨h1, h2⟩

/-- C5 ("ownership non-leakage"): with an empty cache, validating a pair
whose chat id exists but belongs to a different user produces exactly the
same `NotFound` outcome — same error constructor, same detail string — as
validating a chat id that exists in no row at all; the two stores are
indistinguishable to the caller. -/
theorem c5_ownership_nonleak (db1 db2 : List Chat) (u c : String)
    (hother : ∀ ch ∈ db1, ch.chat_id = c → ch.user_id ≠ u)
    (hexists : ∃ ch ∈ db1, ch.chat_id = c)
    (hnone : ∀ ch ∈ db2, ch.chat_id ≠ c) :
    validate_chat_pair db1 [] u c
        = .error (.notFound ("Chat not found or unauthorized: " ++ c))
      ∧ validate_chat_pair db1 [] u c = validate_chat_pair db2 [] u c := by
  have _ := hexists
  have g1 : get_chat db1 c u = none :=
    get_chat_eq_none_of db1 u c
      (fun ch hch hcon => hother ch hch hcon.1 hcon.2)
  have g2 : get_chat db2 c u = none :=
    get_chat_eq_none_of db2 u c (fun ch hch hcon => hnone ch hch hcon.1)
  have hdb : ∀ db : List Chat, get_chat db c u = none →
      validate_chat_pair db [] u c
        = .error (.notFound ("Chat not found or unauthorized: " ++ c)) := by
    intro db hg
    show validate_chat_pair_db db [] u c = _
    unfold validate_chat_pair_db
    rw [hg]
  exact ⟨hdb db1 g1, (hdb db1 g1).trans (hdb db2 g2).symm⟩

/-- Witness for `c5_ownership_nonleak`: `chat-1` exists but is owned by
`user-2`; the other store has no row for `chat-1` at all. -/
theorem c5_ownership_nonleak_witness :
    validate_chat_pair [⟨"chat-1", "user-2", "active"⟩] [] "user-1" "chat-1"
        = .error (.notFound "Chat not found or unauthorized: chat-1")
      ∧ validate_chat_pair [⟨"chat-1", "user-2", "active"⟩] [] "user-1" "chat-1"
        = validate_chat_pair [⟨"other", "user-1", "active"⟩] [] "user-1" "chat-1" := by
  have h := c5_ownership_nonleak [⟨"chat-1", "user-2", "active"⟩]
    [⟨"other", "user-1", "active"⟩] "user-1" "chat-1"
    (by
      intro ch hch h1
      rw [List.mem_singleton] at hch
      subst hch
      decide)
    ⟨⟨"chat-1", "user-2", "active"⟩, List.mem_singleton.mpr rfl, rfl⟩
    (by
      intro ch hch
      rw [List.mem_singleton] at hch
      subst hch
      decide)
  exact h

/-!
## Fail-open fast-cache wrappers

`api/cache_redis.py`.  Each wrapper runs one Redis operation inside
`try/except redis.RedisError`; the backend's outcome (a value, or a raised
`RedisError`) is a parameter here.  The `Except String` return type records
whether the wrapper itself can propagate an error: every branch returns
`.ok`, with the cache-miss value (`False` / `None` / no-op) substituted when
the backend raised.
-/

/-- The outcome of the underlying Redis call: a value, or a raised
`redis.RedisError`. -/
inductive RedisOutcome (α : Type) where
  | ok (a : α)
  | err (msg : String)

/-- `cache_get_user` (cache_redis.py lines 122-147): `True` iff the key is
present; a `RedisError` is logged and reported as a miss (`False`). -/
def cache_get_user_w (backend : RedisOutcome (Option String)) :
    Except String Bool :=
  match backend with
  | .ok r => .ok r.isSome
  | .err _ => .ok false

/-- `cache_set_user` (lines 97-119): `setex`; a `RedisError` is logged and
swallowed ("cache failures shouldn't break the application"). -/
def cache_set_user_w (backend : RedisOutcome Unit) : Except String Unit :=
  match backend with
  | .ok _ => .ok ()
  | .err _ => .ok ()

/-- `cache_get_chat_pair` (lines 185-213): the cached status, `None` on a
miss; a `RedisError` is logged and reported as a miss (`None`). -/
def cache_get_chat_pair_w (backend : RedisOutcome (Option String)) :
    Except String (Option String) :=
  match backend with
  | .ok st => .ok st
  | .err _ => .ok none

/-- `cache_set_chat_pair` (lines 152-182): `setex`; a `RedisError` is logged
and swallowed. -/
def cache_set_chat_pair_w (backend : RedisOutcome Unit) : Except String Unit :=
  match backend with
  | .ok _ => .ok ()
  | .err _ => .ok ()

/-- `validate_chat_pair` (api.py lines 255-304) parametrised by the result of
the fast-cache read layer: a propagated cache error would hit the generic
`except Exception` handler and become a 500; an `.ok` result proceeds — on
`some` (non-empty) it is returned, on `none` the durable store decides. -/
def validate_chat_pair_api (cacheRead : Except String (Option String))
    (db : List Chat) (u c : String) : Except ApiError String :=
  match cacheRead with
  | .error _ => .error (.internal "Failed to validate chat session")
  | .ok (some st) =>
    if st = "" then
      match get_chat db c u with
      | none => .error (.notFound ("Chat not found or unauthorized: " ++ c))
      | some chat => .ok chat.status
    else .ok st
  | .ok none =>
    match get_chat db c u with
    | none => .error (.notFound ("Chat not found or unauthorized: " ++ c))
    | some chat => .ok chat.status

/-- The user-existence branch of `validate_or_create_user` (api.py lines
224-250) parametrised by the result of the fast-cache read layer: a cache hit
skips the durable store; a miss (or absorbed failure) falls back to it. -/
def validate_user_api (cacheRead : Except String Bool) (users : List String)
    (u : String) : Except ApiError Unit :=
  match cacheRead with
  | .error _ => .error (.internal "Failed to validate user")
  | .ok true => .ok ()
  | .ok false =>
    if users.contains u then .ok ()
    else .error (.notFound ("User not found: " ++ u))

/-- C7: every fast-cache wrapper absorbs a backend `RedisError` inside the
cache layer and reports it as an ordinary miss (`False` / `None` / no-op);
no wrapper ever returns an error for any backend outcome; consequently the
session-validation paths behave, under a failing cache, exactly as under a
cache miss — validation completes against the durable store. -/
theorem c7_cache_fail_open :
    (∀ e, cache_get_user_w (.err e) = .ok false)
    ∧ (∀ e, cache_get_chat_pair_w (.err e) = .ok none)
    ∧ (∀ e, cache_set_user_w (.err e) = .ok ())
    ∧ (∀ e, cache_set_chat_pair_w (.err e) = .ok ())
    ∧ (∀ b, (cache_get_user_w b).isOk = true)
    ∧ (∀ b, (cache_get_chat_pair_w b).isOk = true)
    ∧ (∀ b, (cache_set_user_w b).isOk = true)
    ∧ (∀ b, (cache_set_chat_pair_w b).isOk = true)
    ∧ (∀ e (db : List Chat) (u c : String),
        validate_chat_pair_api (cache_get_chat_pair_w (.err e)) db u c
          = validate_chat_pair_api (cache_get_chat_pair_w (.ok none)) db u c)
    ∧ (∀ e (users : List String) (u : String),
        validate_user_api (cache_get_user_w (.err e)) users u
          = validate_user_api (cache_get_user_w (.ok none)) users u) := by
  refine ⟨fun e => rfl, fun e => rfl, fun e => rfl, fun e => rfl,
    ?_, ?_, ?_, ?_, fun e db u c => rfl, fun e users u => rfl⟩
  · intro b; cases b <;> rfl
  · intro b; cases b <;> rfl
  · intro b; cases b <;> rfl
  · intro b; cases b <;> rfl

/-!
## The per-conversation lock discipline

`movie_assistant/agent.py`.  `MovieAgent.__init__` (lines 53-55) creates
`self._thread_locks = defaultdict(asyncio.Lock)` — the per-thread lock is
created by the plain `defaultdict` lookup itself, atomically within one event
-loop step — and `self._lock_cleanup_lock`, which is used only by `close()`
(lines 162-164) to guard clearing the whole map.  `answer` (lines 92-118) and
`ahistory` (lines 120-151) both run
`async with self._thread_locks[thread_id]: <body>`; the `async with` releases
the lock on both normal and exceptional exit and propagates the body's
outcome (carried here as the `ok` flag of the critical body).

The discipline is embedded as a small-step interleaving semantics: each
coroutine is a list of atomic instructions, and two coroutines on the same
thread id interleave over a shared lock state.
-/

/-- One atomic step of a coroutine, at the granularity at which the asyncio
event loop can interleave them. -/
inductive Instr where
  | getLock (tid : String)
  | acquire (tid : String)
  | critBody (tid : String) (ok : Bool)
  | release (tid : String)
  | acquireStructural
  | releaseStructural
  | clearLocks
deriving DecidableEq

/-- The instruction sequence of `MovieAgent.answer` (identical shape for
`ahistory`): defaultdict lookup (creating the lock if absent), acquire,
critical body (`ok` records whether `ainvoke` succeeds or raises), release —
the release follows the body unconditionally, also when `ok = false`. -/
def answerProgram (tid : String) (ok : Bool) : List Instr :=
  [.getLock tid, .acquire tid, .critBody tid ok, .release tid]

/-- The instruction sequence of `MovieAgent.close` (lines 153-164): only
here is the structural `_lock_cleanup_lock` acquired, around clearing the
lock map. -/
def closeProgram : List Instr :=
  [.acquireStructural, .clearLocks, .releaseStructural]

/-- The shared state: which thread ids have locks in the map, which
per-thread locks are held, and whether the structural lock is held. -/
structure AgentState where
  created : List String
  held : List String
  structuralHeld : Bool
deriving DecidableEq

/-- The state after `MovieAgent.__init__`. -/
def initState : AgentState := ⟨[], [], false⟩

/-- Effect of one instruction: `none` means the instruction is blocked
(acquiring a held lock suspends the coroutine). -/
def execInstr (s : AgentState) : Instr → Option AgentState
  | .getLock t =>
    some { s with created :=
      if s.created.contains t then s.created else t :: s.created }
  | .acquire t =>
    if s.held.contains t then none
    else some { s with held := t :: s.held }
  | .critBody _ _ => some s
  | .release t => some { s with held := s.held.erase t }
  | .acquireStructural =>
    if s.structuralHeld then none
    else some { s with structuralHeld := true }
  | .releaseStructural => some { s with structuralHeld := false }
  | .clearLocks => some { s with created := [] }

/-- A configuration of two interleaved coroutines: the remaining instructions
of each, and the shared state. -/
structure Config2 where
  p : List Instr
  q : List Instr
  st : AgentState

/-- One interleaving step: either coroutine executes its next instruction if
it is enabled. -/
inductive Step2 : Config2 → Config2 → Prop where
  | left : ∀ {i : Instr} {p q : List Instr} {s s' : AgentState},
      execInstr s i = some s' → Step2 ⟨i :: p, q, s⟩ ⟨p, q, s'⟩
  | right : ∀ {i : Instr} {p q : List Instr} {s s' : AgentState},
      execInstr s i = some s' → Step2 ⟨p, i :: q, s⟩ ⟨p, q, s'⟩

/-- Reachability under interleaving. -/
inductive Reach2 : Config2 → Config2 → Prop where
  | refl : ∀ c, Reach2 c c
  | tail : ∀ {a b c : Config2}, Reach2 a b → Step2 b c → Reach2 a c

/-- A coroutine is inside the critical section for `t` when its next
instruction is the critical body or the release. -/
def inCrit (prog : List Instr) (t : String) : Prop :=
  prog.head? = some (.critBody t true) ∨ prog.head? = some (.critBody t false)
    ∨ prog.head? = some (.release t)

/-- The suffixes of `answerProgram` a coroutine can be at. -/
def progShape (tid : String) (ok : Bool) (p : List Instr) : Prop :=
  p = answerProgram tid ok
  ∨ p = [.acquire tid, .critBody tid ok, .release tid]
  ∨ p = [.critBody tid ok, .release tid]
  ∨ p = [.release tid]
  ∨ p = []

/-- The inductive invariant of the two-coroutine same-thread system. -/
def lockInv (tid : String) (ok₁ ok₂ : Bool) (cfg : Config2) : Prop :=
  progShape tid ok₁ cfg.p ∧ progShape tid ok₂ cfg.q
  ∧ (cfg.st.held = [] ∨ cfg.st.held = [tid])
  ∧ (cfg.st.held = [tid] ↔ (inCrit cfg.p tid ∨ inCrit cfg.q tid))
  ∧ ¬(inCrit cfg.p tid ∧ inCrit cfg.q tid)

theorem lockInv_swap {tid : String} {ok₁ ok₂ : Bool} {p q : List Instr}
    {s : AgentState} (h : lockInv tid ok₁ ok₂ ⟨p, q, s⟩) :
    lockInv tid ok₂ ok₁ ⟨q, p, s⟩ := by
  obtain ⟨h1, h2, h3, h4, h5⟩ := h
  refine ⟨h2, h1, h3, ?_, ?_⟩
  · rw [h4]; tauto
  · tauto

theorem lockInv_init (tid : String) (ok₁ ok₂ : Bool) :
    lockInv tid ok₁ ok₂
      ⟨answerProgram tid ok₁, answerProgram tid ok₂, initState⟩ := by
  refine ⟨Or.inl rfl, Or.inl rfl, Or.inl rfl, ?_, ?_⟩
  · constructor
    · intro h; simp [initState] at h
    · intro h
      rcases h with h | h <;> simp [inCrit, answerProgram] at h
  · rintro ⟨h1, h2⟩
    simp [inCrit, answerProgram] at h1

theorem lockInv_step_left (tid : String) (ok₁ ok₂ : Bool)
    {i : Instr} {p' q : List Instr} {s s' : AgentState}
    (hinv : lockInv tid ok₁ ok₂ ⟨i :: p', q, s⟩)
    (hexec : execInstr s i = some s') :
    lockInv tid ok₁ ok₂ ⟨p', q, s'⟩ := by
  obtain ⟨hp, hq, hheld, hiff, hexcl⟩ := hinv
  rcases hp with hp | hp | hp | hp | hp
  · -- next instruction: getLock
    rw [answerProgram] at hp
    injection hp with hi hrest
    subst hi
    subst hrest
    simp only [execInstr] at hexec
    injection hexec with hs'
    subst hs'
    have hpold : ¬ inCrit (Instr.getLock tid
        :: [Instr.acquire tid, Instr.critBody tid ok₁, Instr.release tid])
        tid := by simp [inCrit]
    have hpnew : ¬ inCrit
        [Instr.acquire tid, Instr.critBody tid ok₁, Instr.release tid] tid := by
      simp [inCrit]
    refine ⟨Or.inr (Or.inl rfl), hq, hheld, ?_, ?_⟩
    · constructor
      · intro h
        rcases hiff.mp h with h' | h'
        · exact absurd h' hpold
        · exact Or.inr h'
      · intro h
        refine hiff.mpr ?_
        rcases h with h' | h'
        · exact absurd h' hpnew
        · exact Or.inr h'
    · rintro ⟨h1, h2⟩
      exact hpnew h1
  · -- next instruction: acquire
    injection hp with hi hrest
    subst hi
    subst hrest
    simp only [execInstr] at hexec
    by_cases hc : s.held.contains tid = true
    · rw [if_pos hc] at hexec
      simp at hexec
    · rw [if_neg hc] at hexec
      injection hexec with hs'
      subst hs'
      have hsh : s.held = [] := by
        rcases hheld with h | h
        · exact h
        · rw [h] at hc
          simp at hc
      have hpold : ¬ inCrit (Instr.acquire tid
          :: [Instr.critBody tid ok₁, Instr.release tid]) tid := by
        simp [inCrit]
      have hpnew : inCrit [Instr.critBody tid ok₁, Instr.release tid] tid := by
        cases ok₁
        · exact Or.inr (Or.inl rfl)
        · exact Or.inl rfl
      have hncq : ¬ inCrit q tid := by
        intro hcq
        have : s.held = [tid] := hiff.mpr (Or.inr hcq)
        rw [hsh] at this
        simp at this
      have hnew : ({ s with held := tid :: s.held } : AgentState).held
          = [tid] := by
        show tid :: s.held = [tid]
        rw [hsh]
      refine ⟨Or.inr (Or.inr (Or.inl rfl)), hq, Or.inr hnew, ?_, ?_⟩
      · exact ⟨fun _ => Or.inl hpnew, fun _ => hnew⟩
      · rintro ⟨h1, h2⟩
        exact hncq h2
  · -- next instruction: critBody
    injection hp with hi hrest
    subst hi
    subst hrest
    simp only [execInstr] at hexec
    injection hexec with hs'
    subst hs'
    have hpold : inCrit (Instr.critBody tid ok₁ :: [Instr.release tid]) tid := by
      cases ok₁
      · exact Or.inr (Or.inl rfl)
      · exact Or.inl rfl
    have hpnew : inCrit [Instr.release tid] tid := Or.inr (Or.inr rfl)
    refine ⟨Or.inr (Or.inr (Or.inr (Or.inl rfl))), hq, hheld, ?_, ?_⟩
    · exact ⟨fun _ => Or.inl hpnew, fun _ => hiff.mpr (Or.inl hpold)⟩
    · rintro ⟨h1, h2⟩
      exact hexcl ⟨hpold, h2⟩
  · -- next instruction: release
    injection hp with hi hrest
    subst hi
    subst hrest
    simp only [execInstr] at hexec
    injection hexec with hs'
    subst hs'
    have hpold : inCrit [Instr.release tid] tid := Or.inr (Or.inr rfl)
    have hsh : s.held = [tid] := hiff.mpr (Or.inl hpold)
    have hncq : ¬ inCrit q tid := fun hcq => hexcl ⟨hpold, hcq⟩
    have hnew : ({ s with held := s.held.erase tid } : AgentState).held
        = [] := by
      show s.held.erase tid = []
      rw [hsh, List.erase_cons_head]
    refine ⟨Or.inr (Or.inr (Or.inr (Or.inr rfl))), hq, Or.inl hnew, ?_, ?_⟩
    · constructor
      · intro h
        rw [hnew] at h
        simp at h
      · intro h
        rcases h with h' | h'
        · simp [inCrit] at h'
        · exact absurd h' hncq
    · rintro ⟨h1, h2⟩
      simp [inCrit] at h1
  · -- empty program cannot step
    simp at hp

theorem lockInv_reach (tid : String) (ok₁ ok₂ : Bool) {a b : Config2}
    (hr : Reach2 a b) (ha : lockInv tid ok₁ ok₂ a) :
    lockInv tid ok₁ ok₂ b := by
  induction hr with
  | refl => exact ha
  | tail hr hs ih =>
    cases hs with
    | left h => exact lockInv_step_left tid ok₁ ok₂ ih h
    | right h => exact lockInv_swap (lockInv_step_left tid ok₂ ok₁
        (lockInv_swap ih) h)

/-- C8 counterexample: in `MovieAgent.answer`, the creation of a missing
per-thread lock (the `defaultdict` lookup, `getLock`) happens with no
acquisition of the separate structural lock anywhere in the operation — the
structural `_lock_cleanup_lock` is acquired only by `close()` — so "creation
of a missing per-thread lock … is guarded by a separate structural lock" is
false of the code. -/
theorem c8_counterexample :
    Instr.acquireStructural ∉ answerProgram "T" true
    ∧ Instr.getLock "T" ∈ answerProgram "T" true
    ∧ Instr.acquireStructural ∈ closeProgram := by decide

/-- C8 (amended): (1) two concurrent conversation operations on the same
thread id never execute their critical bodies concurrently, for every
success/failure combination of the bodies; (2) when both operations have run
to completion the lock is no longer held — the release happens
unconditionally, also after a failing body; (3) acquiring the lock of one
thread id neither enables nor disables acquiring the lock of a different id,
so operations on different conversations do not serialize on each other;
(4) the per-thread-lock creation step of `answer` is the bare `defaultdict`
access, not guarded by the structural lock, which (5) is used only by the
registry teardown in `close()`. -/
theorem c8_conversation_locks :
    (∀ (tid : String) (ok₁ ok₂ : Bool) (cfg : Config2),
      Reach2 ⟨answerProgram tid ok₁, answerProgram tid ok₂, initState⟩ cfg →
      ¬(inCrit cfg.p tid ∧ inCrit cfg.q tid))
    ∧ (∀ (tid : String) (ok₁ ok₂ : Bool) (cfg : Config2),
        Reach2 ⟨answerProgram tid ok₁, answerProgram tid ok₂, initState⟩ cfg →
        cfg.p = [] → cfg.q = [] → cfg.st.held = [])
    ∧ (∀ (s s₁ : AgentState) (t₁ t₂ : String), t₁ ≠ t₂ →
        execInstr s (.acquire t₁) = some s₁ →
        ((execInstr s₁ (.acquire t₂)).isSome
          ↔ (execInstr s (.acquire t₂)).isSome))
    ∧ (∀ (tid : String) (ok : Bool),
        Instr.acquireStructural ∉ answerProgram tid ok)
    ∧ Instr.acquireStructural ∈ closeProgram := by
  refine ⟨?_, ?_, ?_, ?_, by decide⟩
  · intro tid ok₁ ok₂ cfg hr
    exact (lockInv_reach tid ok₁ ok₂ hr (lockInv_init tid ok₁ ok₂)).2.2.2.2
  · intro tid ok₁ ok₂ cfg hr hp hq
    obtain ⟨_, _, hheld, hiff, _⟩ :=
      lockInv_reach tid ok₁ ok₂ hr (lockInv_init tid ok₁ ok₂)
    rcases hheld with h | h
    · exact h
    · exfalso
      rcases hiff.mp h with hc | hc
      · rw [hp] at hc
        simp [inCrit] at hc
      · rw [hq] at hc
        simp [inCrit] at hc
  · intro s s₁ t₁ t₂ hne hexec
    simp only [execInstr] at hexec ⊢
    by_cases hc : s.held.contains t₁ = true
    · rw [if_pos hc] at hexec
      simp at hexec
    · rw [if_neg hc] at hexec
      injection hexec with hs₁
      subst hs₁
      have hcc : ({ s with held := t₁ :: s.held } : AgentState).held.contains t₂
          = s.held.contains t₂ := by
        show (t₁ :: s.held).contains t₂ = s.held.contains t₂
        have hne' : (t₂ == t₁) = false := by
          simp only [beq_eq_false_iff_ne, ne_eq]
          exact fun e => hne e.symm
        rw [List.contains_cons, hne', Bool.false_or]
      rw [hcc]
      by_cases h₂ : s.held.contains t₂ = true
      · rw [if_pos h₂, if_pos h₂]
      · rw [if_neg h₂, if_neg h₂]
        simp
  · intro tid ok
    cases ok <;> simp [answerProgram]

/-- Witness for `c8_conversation_locks`: the initial configuration is
reachable and its bodies are not in their critical sections; acquiring lock
`a` from the initial state leaves acquiring lock `b` exactly as enabled as
before. -/
theorem c8_conversation_locks_witness :
    ¬(inCrit (answerProgram "T" true) "T"
        ∧ inCrit (answerProgram "T" false) "T")
    ∧ ((execInstr ⟨[], ["a"], false⟩ (.acquire "b")).isSome
        ↔ (execInstr initState (.acquire "b")).isSome) := by
  constructor
  · exact c8_conversation_locks.1 "T" true false
      ⟨answerProgram "T" true, answerProgram "T" false, initState⟩
      (Reach2.refl _)
  · exact c8_conversation_locks.2.2.1 initState ⟨[], ["a"], false⟩ "a" "b"
      (by decide) rfl
